import Mathlib

/-!
Verification of the `node-adauth` Active Directory authentication module.

This file shallowly embeds the module's core algorithms in Lean:

* `src/ad-utils.ts` : `binarySIDToString`, `escapeADString`;
* `src/adauth.ts`   : `#findUser`, `#findObjectBySID`, `#findGroups`
  (with its inner `resolveGroups`), and `authenticate`;
* `lib/adauth.js`   : the older callback implementation's recursive group
  resolver (`resolve` / `iterateGroups`), embedded separately because its
  recursion behaviour differs from the TypeScript rewrite.

The LDAP client is modelled as an oracle `Dir : SearchReq → Except String
(List Entry)`; JavaScript numbers are modelled as `Nat`/`Int` with explicit
two's-complement wrapping where the source relies on 32-bit coercions.
-/

namespace ADAuth

/-! ### JavaScript numeric and string primitives -/

/-- JavaScript `Number.prototype.toString(16)` for a non-negative integer:
lowercase hexadecimal digits, no prefix. -/
def natToHex (n : Nat) : String :=
  (Nat.toDigits 16 n).asString

/-- JavaScript `Number.prototype.toString(16)` on a possibly negative 32-bit
value: negative numbers are rendered as a minus sign followed by the hex
digits of the absolute value. -/
def intToHex (i : Int) : String :=
  if i < 0 then "-" ++ natToHex i.natAbs else natToHex i.toNat

/-- Reinterpret a value already reduced mod 2^32 as a signed 32-bit integer
(JavaScript `ToInt32`). -/
def toInt32 (n : Nat) : Int :=
  let m : Nat := n % 4294967296
  if m < 2147483648 then (m : Int) else (m : Int) - 4294967296

/-- The index of the first occurrence of a character, if any. -/
def firstIdxOf (c : Char) : List Char → Option Nat
  | [] => Option.none
  | x :: rest =>
    if x = c then Option.some 0 else (firstIdxOf c rest).map (· + 1)

/-- JavaScript `s.lastIndexOf(c)` over the characters of a string:
the index of the last occurrence, or `-1` if absent. -/
def lastIndexOfChar (c : Char) (l : List Char) : Int :=
  match firstIdxOf c l.reverse with
  | Option.none => -1
  | Option.some j => (l.length : Int) - 1 - j

/-- One pass of JavaScript `s.replace(/pat/g, rep)` for a literal,
non-empty pattern: scan left to right, and at each position either
substitute a matching occurrence (continuing after it) or emit the
character.  The fuel argument is instantiated with the length of the
scanned list, which suffices because every step consumes at least one
character. -/
def replaceAllGo (pat rep : List Char) : Nat → List Char → List Char
  | 0, s => s
  | _ + 1, [] => []
  | f + 1, c :: rest =>
    if pat.isPrefixOf (c :: rest) then
      rep ++ replaceAllGo pat rep f ((c :: rest).drop pat.length)
    else c :: replaceAllGo pat rep f rest

/-- JavaScript `s.replace(/pat/g, rep)` for a literal, non-empty
pattern: every occurrence is replaced, left to right, without
rescanning the replacement. -/
def jsReplaceAll (s pat rep : String) : String :=
  ⟨replaceAllGo pat.data rep.data s.data.length s.data⟩

/-! ### `ad-utils.ts` — `binarySIDToString`

Source (`src/ad-utils.ts`):

```
const binarySIDToString = (binarySID) => {
  let sid = 'S-' + binarySID[0].toString()
  const subAuthCount = binarySID[1] & 0xff
  let authority
  for (let i = 2; i <= 7; i++) {
    authority |= binarySID[i] << (8 * (5 - (i - 2)))
  }
  sid += '-' + authority.toString(16)
  ...
}
```

The authority accumulation runs through JavaScript 32-bit bitwise
operators: `authority` starts `undefined` (coerced to 0), every shift
count is taken mod 32 (so the intended 40- and 32-bit shifts for bytes 2
and 3 become 8 and 0), and the OR result is a *signed* 32-bit value that
is then printed in *hex*, not decimal.  The sub-authorities use the
`long` library (64-bit), so they are decoded correctly as unsigned
32-bit little-endian integers.  A byte read past the end of the buffer
yields `undefined`, which the bitwise operators coerce to 0; we model
the byte sequence as a `List Nat` of values below 256 read with
default 0. -/

/-- The signed 32-bit value JavaScript computes for the identifier
authority: `(b2<<40)|(b3<<32)|(b4<<24)|(b5<<16)|(b6<<8)|b7` with every
shift count reduced mod 32. -/
def sidAuthority32 (b : List Nat) : Int :=
  toInt32 ((b.getD 2 0 <<< 8) ||| b.getD 3 0 ||| (b.getD 4 0 <<< 24) |||
    (b.getD 5 0 <<< 16) ||| (b.getD 6 0 <<< 8) ||| b.getD 7 0)

/-- One little-endian 32-bit sub-authority, decoded with 64-bit `Long`
arithmetic (exact on `Nat`). -/
def sidSubAuthority (b : List Nat) (i : Nat) : Nat :=
  let offset := 8 + 4 * i
  ((b.getD offset 0 &&& 0xff)) ||| ((b.getD (offset + 1) 0 &&& 0xff) <<< 8) |||
    ((b.getD (offset + 2) 0 &&& 0xff) <<< 16) |||
    ((b.getD (offset + 3) 0 &&& 0xff) <<< 24)

/-- `binarySIDToString` from `src/ad-utils.ts`. -/
def binarySIDToString (b : List Nat) : String :=
  let revision := b.getD 0 0
  let subAuthCount := b.getD 1 0 &&& 0xff
  let sid := "S-" ++ toString revision ++ "-" ++ intToHex (sidAuthority32 b)
  sid ++ String.join ((List.range subAuthCount).map
    (fun i => "-" ++ toString (sidSubAuthority b i)))

/-! ### `ad-utils.ts` — `escapeADString` -/

/-- The complement of the regex `[^ a-zA-Z0-9.&\-_[\]`~|@$%^?:{}!']`:
characters the filter escaper leaves untouched.  Spelled with character
codes; the listed punctuation is `. & - _ [ ] backtick ~ | @ $ % ^ ? :
lbrace rbrace ! '`. -/
def adSafeChar (c : Char) : Bool :=
  let n := c.toNat
  n = 0x20 || (0x61 ≤ n && n ≤ 0x7a) || (0x41 ≤ n && n ≤ 0x5a) ||
    (0x30 ≤ n && n ≤ 0x39) || n = 0x2e || n = 0x26 || n = 0x2d || n = 0x5f ||
    n = 0x5b || n = 0x5d || n = 0x60 || n = 0x7e || n = 0x7c || n = 0x40 ||
    n = 0x24 || n = 0x25 || n = 0x5e || n = 0x3f || n = 0x3a || n = 0x7b ||
    n = 0x7d || n = 0x21 || n = 0x27

/-- The source guards the backslash-literal branch with
`adSpecialChars[match]`, but `adSpecialChars` is a `Set`, which has no
string-keyed properties, so the lookup is always `undefined` and the
branch is dead: every unsafe character takes the hex branch.  We keep
the guard as a named constant to record that fact. -/
def adSpecialCharsIndexLookup (_c : Char) : Bool := false

/-- `hex = match.charCodeAt(0).toString(16); if (hex.length % 2 !== 0)
hex = '0' + hex` — the even-length zero-padded lowercase hex code. -/
def evenHex (n : Nat) : String :=
  let h := natToHex n
  if h.length % 2 ≠ 0 then "0" ++ h else h

/-- The replacement the regex callback produces for one matched
character. -/
def escapeChar (c : Char) : List Char :=
  if adSafeChar c then [c]
  else if adSpecialCharsIndexLookup c then ['\\', c]
  else '\\' :: (evenHex c.toNat).data

/-- `if (es.charAt(0) === ' ') es = '\20' + es.substring(1)` -/
def fixLeadingSpace (l : List Char) : List Char :=
  if l.head? = Option.some ' ' then '\\' :: '2' :: '0' :: l.tail else l

/-- `if (es.charAt(es.length-1) === ' ') es = es.substring(0, es.length-1)
+ '\20'` -/
def fixTrailingSpace (l : List Char) : List Char :=
  if l.getLast? = Option.some ' ' then l.dropLast ++ ['\\', '2', '0'] else l

/-- `escapeADString` from `src/ad-utils.ts`.  (JavaScript applies the
regex per UTF-16 code unit; the embedding works per Unicode scalar,
which agrees on all strings of characters in the basic multilingual
plane.) -/
def escapeADString (s : String) : String :=
  ⟨fixTrailingSpace (fixLeadingSpace (s.data.flatMap escapeChar))⟩

/-! ### Data model

A materialized directory entry as produced by `#search`: the raw
`objectSid` has already been decoded to its string form (or left
`undefined` when the attribute is absent), `memberOf` arrives as
nothing, a bare string, or a sequence of DNs, and `msDS-PrincipalName`
is only populated on the domain object. -/

/-- The three JavaScript shapes of the `memberOf` attribute. -/
inductive MemberOf where
  | nothing
  | single (dn : String)
  | seq (dns : List String)
deriving DecidableEq, Repr

/-- A directory entry after `#search` materialization. -/
structure Entry where
  dn : String
  uid : String
  objectSid : Option String
  primaryGroupID : Option String
  memberOf : MemberOf
  msDSPrincipalName : Option String
deriving DecidableEq, Repr

/-- LDAP search scopes. -/
inductive Scope where
  | base
  | one
  | sub
deriving DecidableEq, Repr

/-- One search request as issued to the LDAP client: base DN, filter,
scope, and the optional attribute allowlist. -/
structure SearchReq where
  base : String
  filter : String
  scope : Scope
  attributes : Option (List String)
deriving DecidableEq, Repr

/-- The directory oracle standing in for the LDAP client's `search`: it
either materializes a full entry list or fails (transport error /
non-zero status). -/
def Dir : Type := SearchReq → Except String (List Entry)

/-- The configuration surface the embedded operations read (after the
constructor has filled in defaults).  `groupSearchFilter` is stored in
its post-constructor form: a function from the user entry to the filter
string (the constructor converts a string template into such a
function).  `groupDNProperty` keeps its default value `dn`, so the
filter function reads the entry's `dn` field. -/
structure Config where
  domainDN : String
  searchBase : String
  searchScope : Scope
  searchFilterBySAN : String
  searchFilterByUPN : String
  searchAttributes : Option (List String)
  groupSearchBase : String
  groupSearchScope : Scope
  groupSearchAttributes : Option (List String)
  groupSearchFilter : Entry → String

/-- The constructor's conversion of a string `groupSearchFilter` into a
filter function:
`user => groupSearchFilter.replace(/{{dn}}/g, user[options.groupDNProperty])
.replace(/{{username}}/g, user.uid)` — both placeholders are replaced
globally with the raw attribute values, with no escaping. -/
def buildGroupSearchFilter (tmpl : String) (user : Entry) : String :=
  jsReplaceAll (jsReplaceAll tmpl "\x7b\x7bdn\x7d\x7d" user.dn)
    "\x7b\x7busername\x7d\x7d" user.uid

/-! ### `#findUser` -/

/-- JavaScript `s.includes(c)` for a single character. -/
def containsChar (s : String) (c : Char) : Bool := s.data.contains c

/-- JavaScript `s.toUpperCase()` (ASCII case mapping). -/
def jsToUpper (s : String) : String := ⟨s.data.map Char.toUpper⟩

/-- JavaScript `s.split(c)` for a single-character separator. -/
def splitOnChar (c : Char) : List Char → List (List Char)
  | [] => [[]]
  | x :: rest =>
    match splitOnChar c rest with
    | [] => [[]]
    | h :: t => if x = c then [] :: h :: t else (x :: h) :: t

/-- The NetBIOS domain part of a down-level logon name:
`username.split('\\')[0]`. -/
def netBIOSOf (u : String) : String :=
  ⟨(splitOnChar '\\' u.data).getD 0 []⟩

/-- The account part of a down-level logon name:
`username.split('\\')[1]`. -/
def accountOf (u : String) : String :=
  ⟨(splitOnChar '\\' u.data).getD 1 []⟩

/-- `substring(0, length-1)` when the last character is a backslash. -/
def stripTrailingBackslash (s : String) : String :=
  if s.data.getLast? = Option.some '\\' then ⟨s.data.dropLast⟩ else s

/-- The comparison key used for NetBIOS domain validation: uppercase the
name, then strip one trailing backslash. -/
def normalizeNetBIOS (s : String) : String :=
  stripTrailingBackslash (jsToUpper s)

/-- The auxiliary domain-validation search request: the domain root is
searched for its own entry, fetching only `msDS-PrincipalName`. -/
def domainReq (cfg : Config) : SearchReq :=
  { base := cfg.domainDN
    filter := "(distinguishedName=" ++ cfg.domainDN ++ ")"
    scope := cfg.searchScope
    attributes := Option.some ["msDS-PrincipalName"] }

/-- The user search request for a resolved filter. -/
def userReq (cfg : Config) (filter : String) : SearchReq :=
  { base := cfg.searchBase
    filter := filter
    scope := cfg.searchScope
    attributes := cfg.searchAttributes }

/-- SAM-account-name filter: the `{{username}}` token is globally
replaced with the escaped account name. -/
def sanFilterFor (cfg : Config) (account : String) : String :=
  jsReplaceAll cfg.searchFilterBySAN "\x7b\x7busername\x7d\x7d"
    (escapeADString account)

/-- UPN filter: the `{{upn}}` token is globally replaced with the
escaped identifier. -/
def upnFilterFor (cfg : Config) (u : String) : String :=
  jsReplaceAll cfg.searchFilterByUPN "\x7b\x7bupn\x7d\x7d" (escapeADString u)

/-- The unknown-domain error message, naming the supplied NetBIOS
name. -/
def unknownDomainMsg (nb : String) : String :=
  "cannot find known domain with netBIOS domain name " ++ nb

/-- The ambiguous-identity error message, reporting the match count and
the original identifier. -/
def ambiguousMsg (n : Nat) (username : String) : String :=
  "Unexpected number of matches (" ++ toString n ++ ") for username \"" ++
    username ++ "\""

/-- The result-count policy applied to the completed user search:
zero matches is "not found" (not an error), one match is returned,
more than one fails with the ambiguous-identity error. -/
def countPolicy (username : String) (result : List Entry) :
    Except String (Option Entry) :=
  match result with
  | [] => Except.ok Option.none
  | [e] => Except.ok (Option.some e)
  | l => Except.error (ambiguousMsg l.length username)

/-- Issue the user search and apply the count policy, appending the
request to the trace. -/
def runUserSearch (cfg : Config) (dir : Dir) (username filter : String)
    (tr : List SearchReq) : Except String (Option Entry) × List SearchReq :=
  let req := userReq cfg filter
  match dir req with
  | Except.error e => (Except.error e, tr ++ [req])
  | Except.ok result => (countPolicy username result, tr ++ [req])

/-- `#findUser` from `src/adauth.ts`, extended with a trace of the
search requests it issues, in order.  A down-level `DOMAIN\account`
identifier first triggers the domain-validation search; reading
`domains[0]['msDS-PrincipalName']` of an empty result or of an entry
without the attribute throws a `TypeError` in JavaScript, modelled as
an error result. -/
def findUser (cfg : Config) (dir : Dir) (username : String) :
    Except String (Option Entry) × List SearchReq :=
  if username = "" then (Except.error "empty username", [])
  else if containsChar username '\\' then
    let dReq := domainReq cfg
    match dir dReq with
    | Except.error e => (Except.error e, [dReq])
    | Except.ok domains =>
      match domains.head? with
      | Option.none =>
        (Except.error "TypeError: cannot read properties of undefined", [dReq])
      | Option.some d =>
        match d.msDSPrincipalName with
        | Option.none =>
          (Except.error "TypeError: cannot read properties of undefined",
            [dReq])
        | Option.some pn =>
          if normalizeNetBIOS (netBIOSOf username) = normalizeNetBIOS pn then
            runUserSearch cfg dir username
              (sanFilterFor cfg (accountOf username)) [dReq]
          else (Except.error (unknownDomainMsg (netBIOSOf username)), [dReq])
  else if containsChar username '@' then
    runUserSearch cfg dir username (upnFilterFor cfg username) []
  else
    runUserSearch cfg dir username (sanFilterFor cfg username) []

/-! ### Group resolution (`src/adauth.ts`) -/

/-- The group-membership search request for one entry. -/
def membershipReq (cfg : Config) (obj : Entry) : SearchReq :=
  { base := cfg.groupSearchBase
    filter := cfg.groupSearchFilter obj
    scope := cfg.groupSearchScope
    attributes := cfg.groupSearchAttributes }

/-- The `objectSid` lookup request used by `#findObjectBySID` (the base
falls back to the domain DN and the scope is the *group* search
scope). -/
def sidReq (cfg : Config) (sid : String) : SearchReq :=
  { base := cfg.domainDN
    filter := "(objectSid=" ++ sid ++ ")"
    scope := cfg.groupSearchScope
    attributes := cfg.groupSearchAttributes }

/-- `#findObjectBySID` from `src/adauth.ts`: the search is wrapped in a
`try`/`catch` that only logs, so a failed search yields `undefined`
exactly like an empty result — the error does not propagate. -/
def findObjectBySID (cfg : Config) (dir : Dir) (sid : String) : Option Entry :=
  match dir (sidReq cfg sid) with
  | Except.ok result => result.head?
  | Except.error _ => Option.none

/-- The derived primary-group SID:
`obj.objectSid.substring(0, obj.objectSid.lastIndexOf('-') + 1) +
obj.primaryGroupID`. -/
def primaryGroupSIDOf (objectSid pgid : String) : String :=
  ⟨objectSid.data.take (lastIndexOfChar '-' objectSid.data + 1).toNat⟩ ++ pgid

/-- Prepending the primary group's DN to `memberOf`: an array is
unshifted, a truthy bare string is normalized to a two-element
sequence, and a falsy value (absent, or the empty string) is left
unchanged. -/
def prependMemberOf (dn : String) : MemberOf → MemberOf
  | MemberOf.seq l => MemberOf.seq (dn :: l)
  | MemberOf.single s =>
    if s = "" then MemberOf.single s else MemberOf.seq [dn, s]
  | MemberOf.nothing => MemberOf.nothing

/-- The primary-group injection step of `resolveGroups`: when
`primaryGroupID` is truthy, derive the primary group's SID, look it up
(failures swallowed by `#findObjectBySID`), and on success prepend the
group to the list and its DN to the entry's `memberOf`.  Reading
`.substring` of an absent `objectSid` throws in JavaScript, modelled as
an error. -/
def injectPrimaryGroup (cfg : Config) (dir : Dir) (obj : Entry)
    (groups : List Entry) : Except String (List Entry × Entry) :=
  match obj.primaryGroupID with
  | Option.none => Except.ok (groups, obj)
  | Option.some pgid =>
    match obj.objectSid with
    | Option.none =>
      Except.error "TypeError: cannot read properties of undefined"
    | Option.some sid =>
      match findObjectBySID cfg dir (primaryGroupSIDOf sid pgid) with
      | Option.none => Except.ok (groups, obj)
      | Option.some pg =>
        Except.ok (pg :: groups,
          { obj with memberOf := prependMemberOf pg.dn obj.memberOf })

/-- The shared dedup loop over a level's search result: entries whose
`objectSid` is already in the resolved set are skipped, the rest are
marked resolved and collected in order (they are appended to the result
sequence and queued for nested resolution). -/
def resolveStep (resolved : List (Option String)) :
    List Entry → List (Option String) × List Entry
  | [] => (resolved, [])
  | g :: gs =>
    if g.objectSid ∈ resolved then resolveStep resolved gs
    else
      let (r, ns) := resolveStep (g.objectSid :: resolved) gs
      (r, g :: ns)

/-- `#findGroups` from `src/adauth.ts` (the TypeScript rewrite), which
returns the collected group sequence together with the (possibly
`memberOf`-mutated) user entry.  Only the top-level `resolveGroups`
call ever executes a search: the nested resolutions are built as
`needResolution.map(group => async () => { ... })` — an array of
*functions*, not promises — so `Promise.all` resolves immediately
without invoking any of them and no recursion takes place. -/
def findGroups (cfg : Config) (dir : Dir) (user : Entry) :
    Except String (List Entry × Entry) :=
  match dir (membershipReq cfg user) with
  | Except.error e => Except.error e
  | Except.ok groups =>
    match injectPrimaryGroup cfg dir user groups with
    | Except.error e => Except.error e
    | Except.ok (groups, user') =>
      let (_, objGroups) := resolveStep [] groups
      Except.ok (objGroups, user')

/-! ### Group resolution (`lib/adauth.js`, the older callback
implementation)

The older resolver recurses for real: `iterateGroups` queues every
newly discovered group and calls `resolve` on each.  An error from a
*nested* `resolve` is discarded by its completion callback
(`function (err) { if (!--toResolve) done(null) }`), while errors of
the current level's own searches propagate through `done(err)`.  Its
`groupSearchFilter` stays a string template and only the `{{dn}}`
token is substituted.  The recursion has no depth limit; the embedding
carries a fuel parameter, which is an artifact of the translation
(termination really comes from the resolved-set dedup). -/

/-- Working state of one `_findGroups` call: the resolved-SID set and
the ordered result sequence. -/
structure LibSt where
  resolved : List (Option String)
  objGroups : List Entry
deriving DecidableEq, Repr

/-- The membership search request of the older resolver. -/
def libMembershipReq (cfg : Config) (gtmpl : String) (obj : Entry) :
    SearchReq :=
  { base := cfg.groupSearchBase
    filter := jsReplaceAll gtmpl "\x7b\x7bdn\x7d\x7d" obj.dn
    scope := cfg.groupSearchScope
    attributes := cfg.groupSearchAttributes }

/-- `resolve` from `lib/adauth.js` `_findGroups`, sequentialized: the
result is the final state plus the error `done` would receive.  Nested
resolutions keep their state mutations but have their errors
discarded. -/
def libResolve (cfg : Config) (gtmpl : String) (dir : Dir) :
    Nat → LibSt → Entry → LibSt × Option String
  | 0, st, _ => (st, Option.some "out of fuel")
  | fuel + 1, st, obj =>
    match dir (libMembershipReq cfg gtmpl obj) with
    | Except.error e => (st, Option.some e)
    | Except.ok result =>
      -- primary-group injection: in this version `_findObjectBySID`
      -- propagates search errors to `done`
      let primary : Except String (List Entry) :=
        match obj.primaryGroupID with
        | Option.none => Except.ok result
        | Option.some pgid =>
          match obj.objectSid with
          | Option.none =>
            Except.error "TypeError: cannot read properties of undefined"
          | Option.some sid =>
            match dir (sidReq cfg (primaryGroupSIDOf sid pgid)) with
            | Except.error e => Except.error e
            | Except.ok r =>
              match r.head? with
              | Option.some pg => Except.ok (pg :: result)
              | Option.none => Except.ok result
      match primary with
      | Except.error e => (st, Option.some e)
      | Except.ok groups =>
        let (resolved', need) := resolveStep st.resolved groups
        let st' : LibSt :=
          { resolved := resolved', objGroups := st.objGroups ++ need }
        (need.foldl (fun s g => (libResolve cfg gtmpl dir fuel s g).1) st',
          Option.none)

/-- `_findGroups` from `lib/adauth.js`: run the recursive resolver on
the user and return the collected sequence, or the error the top-level
`resolve` reported. -/
def findGroupsLib (cfg : Config) (gtmpl : String) (dir : Dir) (fuel : Nat)
    (user : Entry) : Except String (List Entry) :=
  match libResolve cfg gtmpl dir fuel { resolved := [], objGroups := [] }
    user with
  | (st, Option.none) => Except.ok st.objGroups
  | (_, Option.some e) => Except.error e

/-! ### `authenticate` (`src/adauth.ts`) -/

/-- The value `authenticate` stores under the `groups` key of its
result: the group sequence when group search is configured, or —
because the unconfigured `#getGroups` is the identity function whose
return value is assigned to `groups` unconditionally — the user entry
itself. -/
inductive GroupsVal where
  | groupList (l : List Entry)
  | userObject (u : Entry)
deriving DecidableEq, Repr

/-- The resolved user `authenticate` returns:
`Object.assign({}, user, { groups })`. -/
structure AuthUser where
  user : Entry
  groups : GroupsVal
deriving DecidableEq, Repr

/-- A credential-cache record: `{ password: <hashed>, user: <user> }`. -/
structure CacheEntry where
  password : String
  user : AuthUser
deriving Repr

/-- Observable steps of one `authenticate` call, in order. -/
inductive AuthAction where
  | cacheGet (key : String)
  | bindAttempt (username : String)
  | userLookup (username : String)
  | groupLookup (username : String)
  | cacheSet (key : String)
deriving DecidableEq, Repr

/-- The collaborators `authenticate` consults: the credential cache (if
configured), the password hash primitives, the LDAP bind, and the
directory. -/
structure AuthEnv where
  cacheConfigured : Bool
  cacheGet : String → Option CacheEntry
  bcryptCompare : String → String → Bool
  bcryptHash : String → String
  bind : String → String → Option String
  dir : Dir

/-- `#getGroups` as installed by the constructor: when both
`groupSearchBase` and `groupSearchFilter` are configured it is
`#findGroups`; otherwise it is the identity passthrough
`async user => user`. -/
def getGroupsOf (cfg : Config) (grpConfigured : Bool) (dir : Dir)
    (user : Entry) : Except String (GroupsVal × Entry) :=
  if grpConfigured then
    match findGroups cfg dir user with
    | Except.error e => Except.error e
    | Except.ok (gs, u') => Except.ok (GroupsVal.groupList gs, u')
  else Except.ok (GroupsVal.userObject user, user)

/-- `authenticate` from `src/adauth.ts`, with a trace of the
observable actions.  The empty-password rejection comes first, before
the cache lookup and before any bind; a cache hit whose stored hash
verifies returns the cached user with no directory traffic; otherwise
the supplied credentials are bound, the user is resolved, groups are
fetched, and the result (user merged with `groups`) is cached when
caching is configured. -/
def authenticate (cfg : Config) (grpConfigured : Bool) (env : AuthEnv)
    (username password : String) : Except String AuthUser × List AuthAction :=
  if password = "" then (Except.error "No password provided", [])
  else
    let cacheHit : Option AuthUser :=
      if env.cacheConfigured then
        match env.cacheGet username with
        | Option.some c =>
          if env.bcryptCompare password c.password then Option.some c.user
          else Option.none
        | Option.none => Option.none
      else Option.none
    let tr0 : List AuthAction :=
      if env.cacheConfigured then [AuthAction.cacheGet username] else []
    match cacheHit with
    | Option.some u => (Except.ok u, tr0)
    | Option.none =>
      let tr1 := tr0 ++ [AuthAction.bindAttempt username]
      match env.bind username password with
      | Option.some e => (Except.error e, tr1)
      | Option.none =>
        let tr2 := tr1 ++ [AuthAction.userLookup username]
        match (findUser cfg env.dir username).1 with
        | Except.error e => (Except.error e, tr2)
        | Except.ok Option.none =>
          (Except.error ("No such user: \"" ++ username ++ "\""), tr2)
        | Except.ok (Option.some user) =>
          let tr3 := tr2 ++ [AuthAction.groupLookup username]
          match getGroupsOf cfg grpConfigured env.dir user with
          | Except.error e => (Except.error e, tr3)
          | Except.ok (gv, u') =>
            let result : AuthUser := { user := u', groups := gv }
            if env.cacheConfigured then
              (Except.ok result, tr3 ++ [AuthAction.cacheSet username])
            else (Except.ok result, tr3)

/-! ### Concrete fixtures

A small concrete directory used by the closed evaluation theorems:
a user `bob`, groups `A` and `B` where `A`'s membership search yields
`B` and `B`'s yields `A` again (a cycle), plus a primary group. -/

/-- The default `groupSearchFilter` template from the constructor. -/
def defaultGroupTmpl : String :=
  "(&(objectCategory=group)(objectClass=group)(member=\x7b\x7bdn\x7d\x7d))"

/-- The default SAM-account-name filter template. -/
def defaultSANTmpl : String :=
  "(&(objectCategory=user)(objectClass=user)(samAccountName=\x7b\x7busername\x7d\x7d))"

/-- The default UPN filter template. -/
def defaultUPNTmpl : String :=
  "(&(objectCategory=user)(objectClass=user)(userPrincipalName=\x7b\x7bupn\x7d\x7d))"

/-- A configuration with the constructor defaults for the domain
`DC=example,DC=com`. -/
def cfgX : Config :=
  { domainDN := "DC=example,DC=com"
    searchBase := "DC=example,DC=com"
    searchScope := Scope.sub
    searchFilterBySAN := defaultSANTmpl
    searchFilterByUPN := defaultUPNTmpl
    searchAttributes := Option.none
    groupSearchBase := "DC=example,DC=com"
    groupSearchScope := Scope.sub
    groupSearchAttributes := Option.none
    groupSearchFilter := buildGroupSearchFilter defaultGroupTmpl }

/-- The test user. -/
def bobEntry : Entry :=
  { dn := "CN=bob,DC=example,DC=com"
    uid := "bob"
    objectSid := Option.some "S-1-5-21-1-2-3-500"
    primaryGroupID := Option.none
    memberOf := MemberOf.seq ["CN=A,DC=example,DC=com"]
    msDSPrincipalName := Option.none }

/-- Group `A`. -/
def groupA : Entry :=
  { dn := "CN=A,DC=example,DC=com"
    uid := ""
    objectSid := Option.some "S-1-5-21-1-2-3-1101"
    primaryGroupID := Option.none
    memberOf := MemberOf.nothing
    msDSPrincipalName := Option.none }

/-- Group `B`. -/
def groupB : Entry :=
  { dn := "CN=B,DC=example,DC=com"
    uid := ""
    objectSid := Option.some "S-1-5-21-1-2-3-1102"
    primaryGroupID := Option.none
    memberOf := MemberOf.nothing
    msDSPrincipalName := Option.none }

/-- The cyclic directory: `bob`'s membership search yields `A`, `A`'s
yields `B`, and `B`'s yields `A` again. -/
def cycleDir : Dir := fun r =>
  if r.filter = buildGroupSearchFilter defaultGroupTmpl bobEntry then
    Except.ok [groupA]
  else if r.filter = buildGroupSearchFilter defaultGroupTmpl groupA then
    Except.ok [groupB]
  else if r.filter = buildGroupSearchFilter defaultGroupTmpl groupB then
    Except.ok [groupA]
  else Except.ok []

/-! ### Spec-side SID rendering (for the refinement comparison)

The spec describes the decoded SID as `S-<revision>-<authority>-<sub…>`
with the authority "rendered as plain integer formed from the 48-bit
big-endian value" and every component an unsigned decimal.  These
definitions follow the spec's words, for comparison with
`binarySIDToString` above, which is translated from the source. -/

/-- The 48-bit big-endian identifier authority of bytes 2–7, as the
spec describes it. -/
def authority48 (b : List Nat) : Nat :=
  b.getD 2 0 * 2 ^ 40 + b.getD 3 0 * 2 ^ 32 + b.getD 4 0 * 2 ^ 24 +
    b.getD 5 0 * 2 ^ 16 + b.getD 6 0 * 2 ^ 8 + b.getD 7 0

/-- The SID string as the spec describes it: revision, decimal
authority, unsigned decimal sub-authorities. -/
def decodeSIDSpec (b : List Nat) : String :=
  "S-" ++ toString (b.getD 0 0) ++ "-" ++ toString (authority48 b) ++
    String.join ((List.range (b.getD 1 0 &&& 0xff)).map
      (fun i => "-" ++ toString (sidSubAuthority b i)))

/-- Whether a string matches the pattern `S-\d+-\d+(-\d+)*` from the
spec's testable property. -/
def sidPatternMatch (s : String) : Bool :=
  match splitOnChar '-' s.data with
  | p0 :: p1 :: p2 :: rest =>
    p0 == ['S'] &&
      (p1 :: p2 :: rest).all (fun p => !p.isEmpty && p.all Char.isDigit)
  | _ => false

/-- The domain's own entry, carrying its `msDS-PrincipalName`. -/
def domainEntryX : Entry :=
  { dn := "DC=example,DC=com"
    uid := ""
    objectSid := Option.none
    primaryGroupID := Option.none
    memberOf := MemberOf.nothing
    msDSPrincipalName := Option.some "EXAMPLE\\" }

/-- A directory that answers only the domain-validation search. -/
def mismatchDir : Dir := fun r =>
  if r = domainReq cfgX then Except.ok [domainEntryX] else Except.ok []

/-- A directory that answers the domain-validation search and the SAM
search for `bob`. -/
def matchDir : Dir := fun r =>
  if r = domainReq cfgX then Except.ok [domainEntryX]
  else if r = userReq cfgX (sanFilterFor cfgX "bob") then Except.ok [bobEntry]
  else Except.ok []

/-- A directory in which the SAM search for `bob` yields two entries. -/
def twoMatchDir : Dir := fun r =>
  if r = userReq cfgX (sanFilterFor cfgX "bob") then
    Except.ok [bobEntry, groupA]
  else Except.ok []

/-- `bob` with a `primaryGroupID` of `513`. -/
def bobPrim : Entry := { bobEntry with primaryGroupID := Option.some "513" }

/-- A directory in which `bob`'s membership search succeeds but the
derived primary-group SID lookup fails. -/
def failSidDir : Dir := fun r =>
  if r = membershipReq cfgX bobPrim then Except.ok [groupA]
  else if r = sidReq cfgX "S-1-5-21-1-2-3-513" then
    Except.error "primary group search failed"
  else Except.ok []

/-- A directory in which `bob`'s membership search itself fails. -/
def failMemberDir : Dir := fun r =>
  if r = membershipReq cfgX bobPrim then
    Except.error "membership search failed"
  else Except.ok []

/-- The primary group with RID `512`. -/
def pg512 : Entry :=
  { dn := "CN=Domain Users,DC=example,DC=com"
    uid := ""
    objectSid := Option.some "S-1-5-21-1-2-3-512"
    primaryGroupID := Option.none
    memberOf := MemberOf.nothing
    msDSPrincipalName := Option.none }

/-- `bob` with primary group RID `512` and *no* `memberOf` value. -/
def bob512 : Entry :=
  { bobEntry with
    primaryGroupID := Option.some "512", memberOf := MemberOf.nothing }

/-- `bob` with primary group RID `512` and a sequence `memberOf`. -/
def bob512seq : Entry := { bobEntry with primaryGroupID := Option.some "512" }

/-- A directory with an empty membership answer and the primary group
`512` findable by SID. -/
def primDir : Dir := fun r =>
  if r = membershipReq cfgX bob512 then Except.ok []
  else if r = sidReq cfgX "S-1-5-21-1-2-3-512" then Except.ok [pg512]
  else Except.ok []

/-- The directory used by the `authenticate` evaluations: `bob` is
findable by SAM account name, and group searches behave like
`cycleDir`. -/
def authDir : Dir := fun r =>
  if r = userReq cfgX (sanFilterFor cfgX "bob") then Except.ok [bobEntry]
  else cycleDir r

/-- An `authenticate` environment with no cache and a bind that always
succeeds. -/
def envX : AuthEnv :=
  { cacheConfigured := false
    cacheGet := fun _ => Option.none
    bcryptCompare := fun _ _ => false
    bcryptHash := fun p => p
    bind := fun _ _ => Option.none
    dir := authDir }

/-- An entry whose DN contains LDAP-special characters. -/
def evilEntry : Entry :=
  { dn := "CN=x,DC=y"
    uid := "xuid"
    objectSid := Option.none
    primaryGroupID := Option.none
    memberOf := MemberOf.nothing
    msDSPrincipalName := Option.none }

/-- A group filter template that uses both placeholder tokens. -/
def tmplWithUser : String :=
  "(&(member=\x7b\x7bdn\x7d\x7d)(u=\x7b\x7busername\x7d\x7d))"

/-! ### Helper lemmas -/

/-- Appending a string to a `String.mk` is appending the character
lists. -/
theorem mk_append (l : List Char) (g : String) :
    (⟨l⟩ : String) ++ g = ⟨l ++ g.data⟩ := by
  cases g
  rfl

/-- `firstIdxOf` past a prefix that misses the character finds the
explicit occurrence right after it. -/
theorem firstIdxOf_append_cons (c : Char) (l1 l2 : List Char)
    (h : c ∉ l1) : firstIdxOf c (l1 ++ c :: l2) = Option.some l1.length := by
  induction l1 with
  | nil => simp [firstIdxOf]
  | cons x xs ih =>
    have hx : x ≠ c := fun hxc => h (by simp [hxc])
    have hxs : c ∉ xs := fun hm => h (by simp [hm])
    simp [firstIdxOf, hx, ih hxs]

/-- `lastIndexOfChar` of a list of the shape `p ++ c :: rid` with no
occurrence of `c` in `rid` points at the explicit occurrence. -/
theorem lastIndexOfChar_append_cons (c : Char) (p rid : List Char)
    (h : c ∉ rid) : lastIndexOfChar c (p ++ c :: rid) = (p.length : Int) := by
  have hrev : c ∉ rid.reverse := by simpa using h
  have hr : (p ++ c :: rid).reverse = rid.reverse ++ c :: p.reverse := by
    simp
  rw [lastIndexOfChar, hr, firstIdxOf_append_cons c _ _ hrev]
  simp
  omega

/-- Escaping a list of safe characters is the identity on the
character level. -/
theorem flatMap_escapeChar_of_safe (l : List Char)
    (h : ∀ c ∈ l, adSafeChar c = true) : l.flatMap escapeChar = l := by
  induction l with
  | nil => rfl
  | cons c rest ih =>
    have hc : adSafeChar c = true := h c (by simp)
    have hrest : ∀ c ∈ rest, adSafeChar c = true := fun c hm =>
      h c (by simp [hm])
    simp [List.flatMap_cons, escapeChar, hc, ih hrest]

/-- A character is a lowercase hex digit. -/
def hexDigitChar (c : Char) : Bool :=
  c.isDigit || (0x61 ≤ c.toNat && c.toNat ≤ 0x66)

set_option maxRecDepth 4096 in
/-- For character codes up to `0xFF`, the even-length hex escape code
has exactly two lowercase hex digits (in particular, it contains no
space). -/
theorem evenHex_facts :
    ∀ n, n < 256 → (evenHex n).data.length = 2 ∧
      (∀ d ∈ (evenHex n).data, hexDigitChar d = true) := by
  decide

/-- The dedup loop keeps the head of a fresh list in first position. -/
theorem resolveStep_head (g : Entry) (gs : List Entry) :
    ((resolveStep [] (g :: gs)).2).head? = Option.some g := by
  simp [resolveStep]

/-! ### Claim theorems -/

/-- C1: for the cyclic directory (user → A, A → B, B → A) the
TypeScript `resolveGroups` terminates but returns only `[A]`: the
nested resolutions are mapped to *uninvoked* thunk functions handed to
`Promise.all`, so `B` is never discovered.  The older `lib/adauth.js`
resolver, whose `iterateGroups` really recurses, returns exactly
`[A, B]` with the cycle broken by the resolved-set — the behaviour the
claim describes. -/
theorem c1_cycle_resolution_eval :
    findGroups cfgX cycleDir bobEntry = Except.ok ([groupA], bobEntry) ∧
    findGroupsLib cfgX defaultGroupTmpl cycleDir 10 bobEntry =
      Except.ok [groupA, groupB] :=
  ⟨rfl, rfl⟩

/-- C2: the sub-authorities are decoded correctly (`0xFFFFFFFF` becomes
`4294967295`, never a negative number), but the identifier authority is
rendered by `authority.toString(16)` — lowercase *hex*, after a 32-bit
signed accumulation whose shift counts wrap mod 32 — not as the decimal
of the 48-bit big-endian value.  At authority 10 the code yields
`S-1-a-0`, which fails the claimed pattern, while the spec-side
rendering yields `S-1-10-0`; an authority byte with the sign bit set
even renders negative. -/
theorem c2_decodeSID_eval :
    binarySIDToString [1, 1, 0, 0, 0, 0, 0, 10, 0, 0, 0, 0] = "S-1-a-0" ∧
    sidPatternMatch "S-1-a-0" = false ∧
    decodeSIDSpec [1, 1, 0, 0, 0, 0, 0, 10, 0, 0, 0, 0] = "S-1-10-0" ∧
    sidPatternMatch "S-1-10-0" = true ∧
    binarySIDToString [1, 5, 0, 0, 0, 0, 0, 5, 21, 0, 0, 0,
        255, 255, 255, 255, 1, 0, 0, 0, 2, 0, 0, 0, 244, 1, 0, 0] =
      "S-1-5-21-4294967295-1-2-500" ∧
    decodeSIDSpec [1, 5, 0, 0, 0, 0, 0, 5, 21, 0, 0, 0,
        255, 255, 255, 255, 1, 0, 0, 0, 2, 0, 0, 0, 244, 1, 0, 0] =
      "S-1-5-21-4294967295-1-2-500" ∧
    binarySIDToString [1, 0, 0, 0, 128, 0, 0, 0] = "S-1--80000000" ∧
    sidPatternMatch "S-1--80000000" = false := by
  decide

/-- C4: `authenticate` rejects an empty password immediately with the
missing-credential error, for every username, configuration and
environment, with an empty action trace: the cache is not consulted
and bind is never invoked.  (An absent password satisfies the same
`!password` guard in the source.) -/
theorem c4_empty_password_rejected (cfg : Config) (grpConfigured : Bool)
    (env : AuthEnv) (username : String) :
    authenticate cfg grpConfigured env username "" =
      (Except.error "No password provided", []) :=
  rfl

/-- C9: with group search configured, `authenticate` returns the
resolved user merged with its group sequence under `groups`.  With
group search *not* configured, however, `#getGroups` is the identity
passthrough and `authenticate` still executes
`Object.assign({}, user, { groups })`, so the returned record carries a
fabricated `groups` attachment equal to the user object itself —
contradicting the claim's no-attachment clause. -/
theorem c9_groups_attachment_eval :
    authenticate cfgX true envX "bob" "pw" =
      (Except.ok { user := bobEntry, groups := GroupsVal.groupList [groupA] },
        [AuthAction.bindAttempt "bob", AuthAction.userLookup "bob",
          AuthAction.groupLookup "bob"]) ∧
    authenticate cfgX false envX "bob" "pw" =
      (Except.ok { user := bobEntry, groups := GroupsVal.userObject bobEntry },
        [AuthAction.bindAttempt "bob", AuthAction.userLookup "bob",
          AuthAction.groupLookup "bob"]) :=
  ⟨rfl, rfl⟩

/-- C10: the group-search filter substitutes the entry's
`groupDNProperty` value (here its `dn`) for every `\x7b\x7bdn\x7d\x7d`
and its `uid` for every `\x7b\x7busername\x7d\x7d` occurrence verbatim:
a DN containing LDAP-special characters (`,`, `=`) appears unescaped in
the produced filter, although `escapeADString` would alter it — in
contrast with the user-lookup SAM filter, which substitutes the
escaped identifier. -/
theorem c10_group_filter_verbatim :
    (∀ e : Entry, cfgX.groupSearchFilter e =
      jsReplaceAll (jsReplaceAll defaultGroupTmpl "\x7b\x7bdn\x7d\x7d" e.dn)
        "\x7b\x7busername\x7d\x7d" e.uid) ∧
    cfgX.groupSearchFilter evilEntry =
      "(&(objectCategory=group)(objectClass=group)(member=CN=x,DC=y))" ∧
    buildGroupSearchFilter tmplWithUser evilEntry =
      "(&(member=CN=x,DC=y)(u=xuid))" ∧
    escapeADString "CN=x,DC=y" = "CN\\3dx\\2cDC\\3dy" ∧
    escapeADString "CN=x,DC=y" ≠ "CN=x,DC=y" ∧
    sanFilterFor cfgX "CN=x,DC=y" =
      "(&(objectCategory=user)(objectClass=user)(samAccountName=CN\\3dx\\2cDC\\3dy))" :=
  ⟨fun _ => rfl, rfl, rfl, by decide, by decide, by decide⟩

/-- C3: counterexample.  A directory whose derived primary-group SID
lookup *fails* still lets `#findGroups` succeed with the direct groups:
`#findObjectBySID` catches the search error internally (log-and-return
`undefined`), so the failure neither propagates nor discards the group
sequence, contradicting the claim that any search failure at any depth
(including the primary-group SID lookup) fails the whole resolution. -/
theorem c3_counterexample :
    failSidDir (sidReq cfgX (primaryGroupSIDOf "S-1-5-21-1-2-3-500" "513")) =
      Except.error "primary group search failed" ∧
    findGroups cfgX failSidDir bobPrim = Except.ok ([groupA], bobPrim) :=
  ⟨rfl, rfl⟩

/-- C3 (amended): a failure of the group-membership search for the
object being resolved aborts the whole resolution with that error (and
no group sequence is returned), but a failure of the primary-group SID
lookup is swallowed inside `#findObjectBySID` and treated as "primary
group not found": resolution continues and returns the deduplicated
direct groups. -/
theorem c3_amended_error_boundary :
    (∀ (cfg : Config) (dir : Dir) (user : Entry) (e : String),
      dir (membershipReq cfg user) = Except.error e →
      findGroups cfg dir user = Except.error e) ∧
    (∀ (cfg : Config) (dir : Dir) (user : Entry) (groups : List Entry)
        (pgid sid e : String),
      dir (membershipReq cfg user) = Except.ok groups →
      user.primaryGroupID = Option.some pgid →
      user.objectSid = Option.some sid →
      dir (sidReq cfg (primaryGroupSIDOf sid pgid)) = Except.error e →
      findGroups cfg dir user =
        Except.ok ((resolveStep [] groups).2, user)) := by
  constructor
  · intro cfg dir user e h
    simp [findGroups, h]
  · intro cfg dir user groups pgid sid e h1 h2 h3 h4
    simp [findGroups, h1, injectPrimaryGroup, h2, h3, findObjectBySID, h4]

/-- C3 (amended) witness: the two boundary behaviours at the concrete
directories. -/
theorem c3_amended_error_boundary_witness :
    findGroups cfgX failMemberDir bobPrim =
      Except.error "membership search failed" ∧
    findGroups cfgX failSidDir bobPrim =
      Except.ok ((resolveStep [] [groupA]).2, bobPrim) :=
  ⟨c3_amended_error_boundary.1 cfgX failMemberDir bobPrim
      "membership search failed" rfl,
    c3_amended_error_boundary.2 cfgX failSidDir bobPrim [groupA] "513"
      "S-1-5-21-1-2-3-500" "primary group search failed" rfl rfl rfl rfl⟩

/-- C7: counterexample.  For a user with `primaryGroupID` present and
*no* `memberOf` value, the primary group is found and placed first in
the returned sequence, but the user record is left without `memberOf`:
the source only unshifts onto an array or normalizes a truthy bare
string, so nothing is prepended — refuting the claim's universal
"its DN is prepended to the user's memberOf". -/
theorem c7_counterexample :
    findGroups cfgX primDir bob512 = Except.ok ([pg512], bob512) ∧
    bob512.memberOf = MemberOf.nothing ∧
    MemberOf.nothing ≠ MemberOf.seq ["CN=Domain Users,DC=example,DC=com"] :=
  ⟨rfl, rfl, by decide⟩

/-- C7 (amended): the derived primary-group SID is the user's
`objectSid` truncated after its last `-` separator with
`primaryGroupID` appended; when an object with that SID is found it is
placed first in the returned group sequence, and its DN is prepended to
the user's `memberOf` according to `prependMemberOf`: an array is
unshifted, a truthy bare string becomes a two-element sequence, and an
absent (or empty-string) `memberOf` is left unchanged. -/
theorem c7_amended_primary_group :
    (∀ (p rid : List Char) (g : String), '-' ∉ rid →
      primaryGroupSIDOf ⟨p ++ '-' :: rid⟩ g = (⟨p ++ ['-']⟩ : String) ++ g) ∧
    (∀ (cfg : Config) (dir : Dir) (user pg : Entry) (pgid sid : String)
        (groups rest : List Entry),
      user.primaryGroupID = Option.some pgid →
      user.objectSid = Option.some sid →
      dir (membershipReq cfg user) = Except.ok groups →
      dir (sidReq cfg (primaryGroupSIDOf sid pgid)) = Except.ok (pg :: rest) →
      findGroups cfg dir user =
        Except.ok ((resolveStep [] (pg :: groups)).2,
          { user with memberOf := prependMemberOf pg.dn user.memberOf }) ∧
      ((resolveStep [] (pg :: groups)).2).head? = Option.some pg) := by
  constructor
  · intro p rid g h
    show (⟨((p ++ '-' :: rid).take
      (lastIndexOfChar '-' (p ++ '-' :: rid) + 1).toNat : List Char)⟩ :
        String) ++ g = _
    rw [lastIndexOfChar_append_cons '-' p rid h]
    have hn : ((p.length : Int) + 1).toNat = p.length + 1 := by omega
    rw [hn]
    have htake : (p ++ '-' :: rid).take (p.length + 1) = p ++ ['-'] := by
      rw [List.take_append_eq_append_take]
      simp
    rw [htake]
  · intro cfg dir user pg pgid sid groups rest h1 h2 h3 h4
    refine ⟨?_, resolveStep_head pg groups⟩
    simp [findGroups, h3, injectPrimaryGroup, h1, h2, findObjectBySID, h4]

/-- C7 (amended) witness: the derivation at
`S-1-5-21-1-2-3-500`/`512`, and the concrete resolution in which the
primary group comes first and its DN is prepended to the sequence
`memberOf`. -/
theorem c7_amended_primary_group_witness :
    primaryGroupSIDOf "S-1-5-21-1-2-3-500" "512" = "S-1-5-21-1-2-3-512" ∧
    findGroups cfgX primDir bob512seq =
      Except.ok ((resolveStep [] [pg512]).2,
        { bob512seq with
          memberOf := prependMemberOf pg512.dn bob512seq.memberOf }) ∧
    ((resolveStep [] ([pg512] : List Entry)).2).head? = Option.some pg512 := by
  have h1 := c7_amended_primary_group.1 "S-1-5-21-1-2-3".data "500".data "512"
    (by decide)
  have h2 := c7_amended_primary_group.2 cfgX primDir bob512seq pg512 "512"
    "S-1-5-21-1-2-3-500" [] [] rfl rfl rfl rfl
  exact ⟨h1, h2.1, h2.2⟩

/-- The trace contribution of the user search is the pending trace plus
its own request, whether it succeeds or fails. -/
theorem runUserSearch_trace (cfg : Config) (dir : Dir) (u f : String)
    (tr : List SearchReq) :
    (runUserSearch cfg dir u f tr).2 = tr ++ [userReq cfg f] := by
  cases hd : dir (userReq cfg f) <;> simp [runUserSearch, hd]

/-- When the user search completes, `runUserSearch` returns the count
policy's verdict. -/
theorem runUserSearch_result (cfg : Config) (dir : Dir) (u f : String)
    (tr : List SearchReq) (l : List Entry)
    (h : dir (userReq cfg f) = Except.ok l) :
    (runUserSearch cfg dir u f tr).1 = countPolicy u l := by
  simp [runUserSearch, h]

/-- An identifier that contains a character is not the empty string. -/
theorem ne_empty_of_containsChar (u : String) (c : Char)
    (h : containsChar u c = true) : u ≠ "" := by
  intro h0
  subst h0
  have hfalse : containsChar "" c = false := rfl
  rw [hfalse] at h
  cases h

/-- C5: for every identifier containing a backslash, `#findUser` issues
the domain-validation search (fetching `msDS-PrincipalName` at the
domain root) before any other search; the supplied NetBIOS name and the
fetched one are compared through `normalizeNetBIOS` (uppercase both,
strip one trailing backslash); on mismatch the call fails with the
unknown-domain error naming the supplied NetBIOS name and issues no
further search, and on match the one further search uses the SAM filter
template with the escaped account substituted. -/
theorem c5_downlevel_domain_validation (cfg : Config) (dir : Dir)
    (u : String) (h : containsChar u '\\' = true) :
    ((findUser cfg dir u).2.head? = Option.some (domainReq cfg)) ∧
    (∀ (d : Entry) (ds : List Entry) (pn : String),
      dir (domainReq cfg) = Except.ok (d :: ds) →
      d.msDSPrincipalName = Option.some pn →
      normalizeNetBIOS (netBIOSOf u) ≠ normalizeNetBIOS pn →
      findUser cfg dir u =
        (Except.error (unknownDomainMsg (netBIOSOf u)), [domainReq cfg])) ∧
    (∀ (d : Entry) (ds : List Entry) (pn : String),
      dir (domainReq cfg) = Except.ok (d :: ds) →
      d.msDSPrincipalName = Option.some pn →
      normalizeNetBIOS (netBIOSOf u) = normalizeNetBIOS pn →
      (findUser cfg dir u).2 =
        [domainReq cfg, userReq cfg (sanFilterFor cfg (accountOf u))]) := by
  have hne : u ≠ "" := ne_empty_of_containsChar u '\\' h
  refine ⟨?_, ?_, ?_⟩
  · simp only [findUser, hne, h, if_true, if_false, ite_true, ite_false,
      reduceIte]
    cases hdom : dir (domainReq cfg) with
    | error e => simp
    | ok domains =>
      cases domains with
      | nil => simp
      | cons d ds =>
        cases hpn : d.msDSPrincipalName with
        | none => simp [hpn]
        | some pn =>
          simp only [hpn, List.head?_cons]
          split
          · rw [runUserSearch_trace]
            simp
          · simp
  · intro d ds pn hdom hpn hmis
    simp [findUser, hne, h, hdom, hpn, hmis]
  · intro d ds pn hdom hpn hmat
    simp only [findUser, hne, h, if_true, if_false, ite_true, ite_false,
      reduceIte, hdom, List.head?_cons, hpn, hmat]
    rw [runUserSearch_trace]
    simp

/-- C5 witness: at the concrete directories, the mismatching NetBIOS
name `EXAMPLE2` fails with the unknown-domain error after only the
domain-validation search, while the case-differing `ExAmPlE` passes and
triggers exactly the validation search followed by the SAM user
search. -/
theorem c5_downlevel_domain_validation_witness :
    ((findUser cfgX mismatchDir "EXAMPLE2\\bob").2.head? =
      Option.some (domainReq cfgX)) ∧
    findUser cfgX mismatchDir "EXAMPLE2\\bob" =
      (Except.error (unknownDomainMsg (netBIOSOf "EXAMPLE2\\bob")),
        [domainReq cfgX]) ∧
    (findUser cfgX matchDir "ExAmPlE\\bob").2 =
      [domainReq cfgX,
        userReq cfgX (sanFilterFor cfgX (accountOf "ExAmPlE\\bob"))] := by
  have ha := c5_downlevel_domain_validation cfgX mismatchDir "EXAMPLE2\\bob"
    (by decide)
  have hb := c5_downlevel_domain_validation cfgX matchDir "ExAmPlE\\bob"
    (by decide)
  exact ⟨ha.1, ha.2.1 domainEntryX [] "EXAMPLE\\" rfl rfl (by decide),
    hb.2.2 domainEntryX [] "EXAMPLE\\" rfl rfl (by decide)⟩

/-- C6: once the user search completes, `#findUser` applies the
result-count policy — zero matches returns not-found (`none`, not an
error), one match returns the entry, and two or more matches fail with
the ambiguous-identity error reporting the match count and the original
identifier — for plain and UPN identifiers as well as for validated
down-level identifiers. -/
theorem c6_result_count_policy :
    (∀ (cfg : Config) (dir : Dir) (u f : String),
      u ≠ "" → containsChar u '\\' = false →
      f = (if containsChar u '@' then upnFilterFor cfg u
        else sanFilterFor cfg u) →
      (dir (userReq cfg f) = Except.ok [] →
        (findUser cfg dir u).1 = Except.ok Option.none) ∧
      (∀ e, dir (userReq cfg f) = Except.ok [e] →
        (findUser cfg dir u).1 = Except.ok (Option.some e)) ∧
      (∀ l, dir (userReq cfg f) = Except.ok l → 2 ≤ l.length →
        (findUser cfg dir u).1 = Except.error (ambiguousMsg l.length u))) ∧
    (∀ (cfg : Config) (dir : Dir) (u : String) (d : Entry)
        (ds : List Entry) (pn : String),
      containsChar u '\\' = true →
      dir (domainReq cfg) = Except.ok (d :: ds) →
      d.msDSPrincipalName = Option.some pn →
      normalizeNetBIOS (netBIOSOf u) = normalizeNetBIOS pn →
      (dir (userReq cfg (sanFilterFor cfg (accountOf u))) = Except.ok [] →
        (findUser cfg dir u).1 = Except.ok Option.none) ∧
      (∀ e, dir (userReq cfg (sanFilterFor cfg (accountOf u))) =
          Except.ok [e] →
        (findUser cfg dir u).1 = Except.ok (Option.some e)) ∧
      (∀ l, dir (userReq cfg (sanFilterFor cfg (accountOf u))) =
          Except.ok l → 2 ≤ l.length →
        (findUser cfg dir u).1 = Except.error (ambiguousMsg l.length u))) := by
  have hpolicy : ∀ (u : String) (l : List Entry), 2 ≤ l.length →
      countPolicy u l = Except.error (ambiguousMsg l.length u) := by
    intro u l hl
    match l with
    | [] => simp at hl
    | [e] => simp at hl
    | a :: b :: t => rfl
  constructor
  · intro cfg dir u f hne hnb hf
    have hshape : (findUser cfg dir u).1 =
        (runUserSearch cfg dir u f []).1 := by
      simp only [findUser, hne, if_true, if_false, ite_true, ite_false,
        reduceIte, hnb, Bool.false_eq_true]
      cases hat : containsChar u '@' with
      | true => simp [hat, hf]
      | false => simp [hat, hf]
    refine ⟨?_, ?_, ?_⟩
    · intro hz
      rw [hshape, runUserSearch_result cfg dir u f [] [] hz]
      rfl
    · intro e ho
      rw [hshape, runUserSearch_result cfg dir u f [] [e] ho]
      rfl
    · intro l hl h2
      rw [hshape, runUserSearch_result cfg dir u f [] l hl]
      exact hpolicy u l h2
  · intro cfg dir u d ds pn hb hdom hpn hmat
    have hne : u ≠ "" := ne_empty_of_containsChar u '\\' hb
    have hshape : (findUser cfg dir u).1 =
        (runUserSearch cfg dir u (sanFilterFor cfg (accountOf u))
          [domainReq cfg]).1 := by
      simp only [findUser, hne, hb, if_true, if_false, ite_true, ite_false,
        reduceIte, hdom, List.head?_cons, hpn, hmat]
    refine ⟨?_, ?_, ?_⟩
    · intro hz
      rw [hshape, runUserSearch_result cfg dir u _ _ [] hz]
      rfl
    · intro e ho
      rw [hshape, runUserSearch_result cfg dir u _ _ [e] ho]
      rfl
    · intro l hl h2
      rw [hshape, runUserSearch_result cfg dir u _ _ l hl]
      exact hpolicy u l h2

/-- C6 witness: zero matches for `bob` yields not-found, one match
yields the entry, two matches yield the ambiguous-identity error
reporting the count `2` and the identifier, and the validated
down-level lookup `ExAmPlE\bob` yields its single match. -/
theorem c6_result_count_policy_witness :
    (findUser cfgX mismatchDir "bob").1 = Except.ok Option.none ∧
    (findUser cfgX matchDir "bob").1 = Except.ok (Option.some bobEntry) ∧
    (findUser cfgX twoMatchDir "bob").1 =
      Except.error (ambiguousMsg 2 "bob") ∧
    (findUser cfgX matchDir "ExAmPlE\\bob").1 =
      Except.ok (Option.some bobEntry) := by
  have h0 := c6_result_count_policy.1 cfgX mismatchDir "bob"
    (sanFilterFor cfgX "bob") (by decide) (by decide) rfl
  have h1 := c6_result_count_policy.1 cfgX matchDir "bob"
    (sanFilterFor cfgX "bob") (by decide) (by decide) rfl
  have h2 := c6_result_count_policy.1 cfgX twoMatchDir "bob"
    (sanFilterFor cfgX "bob") (by decide) (by decide) rfl
  have h3 := c6_result_count_policy.2 cfgX matchDir "ExAmPlE\\bob"
    domainEntryX [] "EXAMPLE\\" (by decide) rfl rfl (by decide)
  exact ⟨h0.1 rfl, h1.2.1 bobEntry rfl,
    h2.2.2 [bobEntry, groupA] rfl (by decide), h3.2.1 bobEntry rfl⟩

/-- C8: counterexample.  The claim's per-character rule — every unsafe
character is replaced with a backslash-prefixed literal (two characters)
or a backslash plus a two-digit hex code (three characters) — fails at
the single-character string `U+0100`: its char code needs three hex
digits, the source pads to even length, and the result `\0100` has five
characters. -/
theorem c8_counterexample :
    adSafeChar (Char.ofNat 0x100) = false ∧
    escapeADString ⟨[Char.ofNat 0x100]⟩ = "\\0100" ∧
    ("\\0100" : String).data.length = 5 ∧
    ¬(("\\0100" : String).data.length = 2 ∨
      ("\\0100" : String).data.length = 3) := by
  decide

/-- C8 (amended): characters in the safe set are left unchanged in the
interior (a string of safe characters with no boundary space, in
particular one of letters and digits only, is returned verbatim); every
unsafe character is replaced with a backslash plus the even-length
zero-padded lowercase hex code of its char code — exactly two hex
digits for codes up to `0xFF` (the backslash-literal branch for
LDAP-special characters is dead because the `Set` of special characters
is indexed instead of queried with `has`); and a leading or trailing
space of the escaped result becomes the literal `\20` while interior
spaces stay, as in `" a,b "`. -/
theorem c8_amended_escape :
    (∀ s : String, (∀ c ∈ s.data, adSafeChar c = true) →
      s.data.head? ≠ Option.some ' ' → s.data.getLast? ≠ Option.some ' ' →
      escapeADString s = s) ∧
    (∀ c : Char, adSafeChar c = false → c.toNat < 256 →
      escapeADString ⟨[c]⟩ = ⟨'\\' :: (evenHex c.toNat).data⟩ ∧
      (evenHex c.toNat).data.length = 2 ∧
      (∀ d ∈ (evenHex c.toNat).data, hexDigitChar d = true)) ∧
    escapeADString " a,b " = "\\20a\\2cb\\20" ∧
    escapeADString "Ab3" = "Ab3" := by
  refine ⟨?_, ?_, by decide, by decide⟩
  · intro s hsafe hhead hlast
    show (⟨fixTrailingSpace (fixLeadingSpace (s.data.flatMap escapeChar))⟩ :
      String) = s
    rw [flatMap_escapeChar_of_safe s.data hsafe]
    unfold fixLeadingSpace
    rw [if_neg hhead]
    unfold fixTrailingSpace
    rw [if_neg hlast]
  · intro c hc hlt
    obtain ⟨hlen, hdig⟩ := evenHex_facts c.toNat hlt
    obtain ⟨d1, d2, hd⟩ := List.length_eq_two.mp hlen
    have hchar : escapeChar c = '\\' :: (evenHex c.toNat).data := by
      simp [escapeChar, hc, adSpecialCharsIndexLookup]
    have hd2 : hexDigitChar d2 = true := hdig d2 (by simp [hd])
    have hd2ne : d2 ≠ ' ' := by
      intro hsp
      rw [hsp] at hd2
      exact absurd hd2 (by decide)
    refine ⟨?_, hlen, hdig⟩
    show (⟨fixTrailingSpace (fixLeadingSpace ([c].flatMap escapeChar))⟩ :
      String) = _
    have hfm : [c].flatMap escapeChar = '\\' :: (evenHex c.toNat).data := by
      simp [hchar]
    rw [hfm]
    unfold fixLeadingSpace
    rw [if_neg (by simp)]
    unfold fixTrailingSpace
    rw [if_neg (by simp [hd, hd2ne])]

/-- C8 (amended) witness: a letters-and-digits string is returned
unchanged, and the unsafe character `,` (code `0x2c`) escapes to a
backslash plus its two-digit hex code. -/
theorem c8_amended_escape_witness :
    escapeADString "xY9" = "xY9" ∧
    escapeADString ⟨[',']⟩ = ⟨'\\' :: (evenHex (',').toNat).data⟩ := by
  have h1 := c8_amended_escape.1 "xY9" (by decide) (by decide) (by decide)
  have h2 := (c8_amended_escape.2.1 ',' (by decide) (by decide)).1
  exact ⟨h1, h2⟩

end ADAuth
